import Mathlib

set_option maxRecDepth 8192

/-! Shallow embedding of DB_Receiver (src/main.rs): a TCP telemetry server that reads
newline-delimited JSON sensor records from each client connection and inserts them
into a SQLite table, skipping keepalive control messages and malformed lines. -/

/-- Whitespace test covering the characters Rust str::trim strips in the ASCII range
used by this protocol. -/
def isWs (c : Char) : Bool :=
  c = ' ' || c = '\t' || c = '\n' || c = '\r'

/-- Embedding of Rust str::trim (main.rs line 161): drop whitespace from both ends. -/
def trimWs (s : String) : String :=
  String.mk (((s.toList.dropWhile isWs).reverse.dropWhile isWs).reverse)

/-- Substring occurrence on character lists: pat occurs somewhere in the list. -/
def hasSub (pat : List Char) : List Char → Bool
  | [] => pat.isEmpty
  | c :: rest => pat.isPrefixOf (c :: rest) || hasSub pat rest

/-- Embedding of Rust str::contains with a string pattern (main.rs lines 171 and 180). -/
def strContains (s pat : String) : Bool :=
  hasSub pat.toList s.toList

/-- Embedding of struct SensorData (main.rs lines 15-31). The f64 scalars are modelled
as exact rationals: every property stated about them concerns only parse success,
defaulting and transport, never rounding. -/
structure SensorData where
  sessionID : Option Int
  timestamp : String
  latitude : ℚ
  longitude : ℚ
  altitude : ℚ
  accel_x : ℚ
  accel_y : ℚ
  accel_z : ℚ
  gyro_x : ℚ
  gyro_y : ℚ
  gyro_z : ℚ
  dac_1 : ℚ
  dac_2 : ℚ
  dac_3 : ℚ
  dac_4 : ℚ
deriving DecidableEq

/-- JSON values as serde_json sees them while deserializing. A number keeps its exact
rational value together with whether its literal had a fraction or exponent part,
because serde_json distinguishes integer literals from float literals when
deserializing into i32. -/
inductive Json where
  | null : Json
  | bool (b : Bool) : Json
  | num (q : ℚ) (isFloat : Bool) : Json
  | str (s : String) : Json
  | arr (xs : List Json) : Json
  | obj (fields : List (String × Json)) : Json

/-- Skip JSON insignificant whitespace. -/
def skipWs : List Char → List Char
  | [] => []
  | c :: rest => if isWs c then skipWs rest else c :: rest

/-- Value of one decimal digit character. -/
def digitVal (c : Char) : Nat := c.toNat - 48

/-- Value of a decimal digit string, most significant first. -/
def digitsToNat (ds : List Char) : Nat := ds.foldl (fun a c => a * 10 + digitVal c) 0

/-- Value of one hexadecimal digit character, if any. -/
def hexVal (c : Char) : Option Nat :=
  if c.isDigit then some (c.toNat - 48)
  else if 'a' ≤ c ∧ c ≤ 'f' then some (c.toNat - 87)
  else if 'A' ≤ c ∧ c ≤ 'F' then some (c.toNat - 55)
  else none

/-- One-character JSON string escapes. -/
def escChar : Char → Option Char
  | '"' => some '"'
  | '\\' => some '\\'
  | '/' => some '/'
  | 'b' => some (Char.ofNat 8)
  | 'f' => some (Char.ofNat 12)
  | 'n' => some '\n'
  | 'r' => some '\r'
  | 't' => some '\t'
  | _ => none

/-- Parse the body of a JSON string after the opening quote: returns the decoded
characters and the rest of the input after the closing quote. Control characters are
invalid; escapes follow the JSON grammar (a \u escape yields the scalar value when it
is a valid code point). -/
def pStrChars : Nat → List Char → Option (List Char × List Char)
  | 0, _ => none
  | _, [] => none
  | fuel + 1, c :: rest =>
    if c = '"' then some ([], rest)
    else if c = '\\' then
      match rest with
      | 'u' :: h1 :: h2 :: h3 :: h4 :: rest2 =>
        match hexVal h1, hexVal h2, hexVal h3, hexVal h4 with
        | some a, some b, some c2, some d2 =>
          (pStrChars fuel rest2).map fun p =>
            (Char.ofNat (((a * 16 + b) * 16 + c2) * 16 + d2) :: p.1, p.2)
        | _, _, _, _ => none
      | e :: rest2 =>
        match escChar e with
        | some ec => (pStrChars fuel rest2).map fun p => (ec :: p.1, p.2)
        | none => none
      | [] => none
    else if c.toNat < 32 then none
    else (pStrChars fuel rest).map fun p => (c :: p.1, p.2)

/-- Parse the exponent part of a JSON number after the e marker: optional sign, then at
least one digit. -/
def pExpPart (cs : List Char) : Option (Int × List Char) :=
  let sgnSplit : Int × List Char :=
    match cs with
    | '+' :: t => (1, t)
    | '-' :: t => (-1, t)
    | _ => (1, cs)
  let ds := sgnSplit.2.takeWhile Char.isDigit
  let rest := sgnSplit.2.dropWhile Char.isDigit
  if ds.isEmpty then none
  else some (sgnSplit.1 * (digitsToNat ds : Int), rest)

/-- Parse the JSON number grammar from the head of the input: optional minus, integer
part without redundant leading zero, optional fraction, optional exponent. Returns the
exact value, whether the literal was a float (fraction or exponent present), and the
rest of the input. -/
def pNumber (cs : List Char) : Option ((ℚ × Bool) × List Char) :=
  let signSplit : Bool × List Char :=
    match cs with
    | '-' :: t => (true, t)
    | _ => (false, cs)
  let neg := signSplit.1
  let cs1 := signSplit.2
  match cs1 with
  | [] => none
  | c :: _ =>
    if !c.isDigit then none
    else
      let ids := cs1.takeWhile Char.isDigit
      let cs2 := cs1.dropWhile Char.isDigit
      if 2 ≤ ids.length ∧ ids.headD '0' = '0' then none
      else
        let fracSplit : List Char × Bool × List Char :=
          match cs2 with
          | '.' :: t => (t.takeWhile Char.isDigit, true, t.dropWhile Char.isDigit)
          | _ => ([], false, cs2)
        let fds := fracSplit.1
        let hasFrac := fracSplit.2.1
        let cs3 := fracSplit.2.2
        if hasFrac ∧ fds.isEmpty then none
        else
          let expRes : Option (Int × Bool × List Char) :=
            match cs3 with
            | 'e' :: t => (pExpPart t).map fun p => (p.1, true, p.2)
            | 'E' :: t => (pExpPart t).map fun p => (p.1, true, p.2)
            | _ => some (0, false, cs3)
          match expRes with
          | none => none
          | some (ex, hasExp, cs4) =>
            let mNat : Nat := digitsToNat ids * 10 ^ fds.length + digitsToNat fds
            let numAbs : Nat := if 0 ≤ ex then mNat * 10 ^ ex.toNat else mNat
            let den : Nat :=
              if 0 ≤ ex then 10 ^ fds.length else 10 ^ fds.length * 10 ^ (-ex).toNat
            let v : ℚ := mkRat (if neg then -(numAbs : Int) else (numAbs : Int)) den
            some ((v, hasFrac || hasExp), cs4)

/-- Consume an exact literal from the head of the input. -/
def expectLit : List Char → List Char → Option (List Char)
  | [], cs => some cs
  | l :: ls, c :: cs => if l = c then expectLit ls cs else none
  | _ :: _, [] => none

mutual

/-- Parse one JSON value, skipping leading whitespace. Fuel decreases on every
recursive call; callers supply at least the input length plus one. -/
def pVal : Nat → List Char → Option (Json × List Char)
  | 0, _ => none
  | fuel + 1, cs =>
    match skipWs cs with
    | [] => none
    | c :: rest =>
      if c = 'n' then (expectLit ['u', 'l', 'l'] rest).map fun r => (Json.null, r)
      else if c = 't' then (expectLit ['r', 'u', 'e'] rest).map fun r => (Json.bool true, r)
      else if c = 'f' then (expectLit ['a', 'l', 's', 'e'] rest).map fun r => (Json.bool false, r)
      else if c = '"' then
        (pStrChars (rest.length + 1) rest).map fun p => (Json.str (String.mk p.1), p.2)
      else if c = Char.ofNat 123 then
        match skipWs rest with
        | d :: rest2 =>
          if d = Char.ofNat 125 then some (Json.obj [], rest2) else pMembers fuel (skipWs rest)
        | [] => none
      else if c = '[' then
        match skipWs rest with
        | d :: rest2 => if d = ']' then some (Json.arr [], rest2) else pElems fuel (skipWs rest)
        | [] => none
      else if c = '-' ∨ c.isDigit then
        (pNumber (c :: rest)).map fun p => (Json.num p.1.1 p.1.2, p.2)
      else none

/-- Parse the members of a JSON object after the opening brace (at least one member). -/
def pMembers : Nat → List Char → Option (Json × List Char)
  | 0, _ => none
  | fuel + 1, cs =>
    match skipWs cs with
    | '"' :: rest =>
      match pStrChars (rest.length + 1) rest with
      | none => none
      | some (kcs, rest2) =>
        match skipWs rest2 with
        | ':' :: rest3 =>
          match pVal fuel rest3 with
          | none => none
          | some (v, rest4) =>
            match skipWs rest4 with
            | ',' :: rest5 =>
              match pMembers fuel rest5 with
              | some (Json.obj fs, rest6) => some (Json.obj ((String.mk kcs, v) :: fs), rest6)
              | _ => none
            | d :: rest5 =>
              if d = Char.ofNat 125 then some (Json.obj [(String.mk kcs, v)], rest5) else none
            | [] => none
        | _ => none
    | _ => none

/-- Parse the elements of a JSON array after the opening bracket (at least one element). -/
def pElems : Nat → List Char → Option (Json × List Char)
  | 0, _ => none
  | fuel + 1, cs =>
    match pVal fuel cs with
    | none => none
    | some (v, rest) =>
      match skipWs rest with
      | ',' :: rest2 =>
        match pElems fuel rest2 with
        | some (Json.arr xs, rest3) => some (Json.arr (v :: xs), rest3)
        | _ => none
      | ']' :: rest2 => some (Json.arr [v], rest2)
      | _ => none

end

/-- Embedding of the serde_json text layer: parse one JSON document with optional
surrounding whitespace; any trailing non-whitespace content is an error. -/
def parseJsonStr (s : String) : Option Json :=
  match pVal (s.toList.length + 1) s.toList with
  | some (j, rest) => if (skipWs rest).isEmpty then some j else none
  | none => none

/-- Number of fields of the object named k (the derived serde visitor rejects a duplicate
of a known field, so multiplicity matters). -/
def countKey : List (String × Json) → String → Nat
  | [], _ => 0
  | p :: fs, k => (if p.1 = k then 1 else 0) + countKey fs k

/-- First value bound to key k in the object, if any. -/
def lookupKey : List (String × Json) → String → Option Json
  | [], _ => none
  | p :: fs, k => if p.1 = k then some p.2 else lookupKey fs k

/-- serde derive semantics of a required f64 field: present exactly once and a number
(integer or float literal); anything else is an error. -/
def getNumField (fs : List (String × Json)) (k : String) : Option ℚ :=
  if countKey fs k = 1 then
    match lookupKey fs k with
    | some (Json.num q _) => some q
    | _ => none
  else none

/-- serde derive semantics of the required String field: present exactly once and a
JSON string. -/
def getStrField (fs : List (String × Json)) (k : String) : Option String :=
  if countKey fs k = 1 then
    match lookupKey fs k with
    | some (Json.str s) => some s
    | _ => none
  else none

/-- serde derive semantics of the Option i32 field sessionID: absent or null yields
none; an integer literal within i32 range yields some; a float literal, an
out-of-range value, a wrong type or a duplicate is an error. -/
def getSessionField (fs : List (String × Json)) : Option (Option Int) :=
  match countKey fs "sessionID" with
  | 0 => some none
  | 1 =>
    match lookupKey fs "sessionID" with
    | some Json.null => some none
    | some (Json.num q isF) =>
      if isF = false ∧ q.den = 1 ∧ -2147483648 ≤ q.num ∧ q.num ≤ 2147483647 then
        some (some q.num)
      else none
    | _ => none
  | _ => none

/-- Embedding of the derived Deserialize for SensorData applied to a parsed value
(object form): unknown keys are ignored, duplicate known keys are rejected, the
missing Option field defaults to none, a missing required field is an error. -/
def sensorDataFromJson : Json → Option SensorData
  | Json.obj fs => do
    let sid ← getSessionField fs
    let ts ← getStrField fs "timestamp"
    let lat ← getNumField fs "latitude"
    let lon ← getNumField fs "longitude"
    let alt ← getNumField fs "altitude"
    let ax ← getNumField fs "accel_x"
    let ay ← getNumField fs "accel_y"
    let az ← getNumField fs "accel_z"
    let gx ← getNumField fs "gyro_x"
    let gy ← getNumField fs "gyro_y"
    let gz ← getNumField fs "gyro_z"
    let d1 ← getNumField fs "dac_1"
    let d2 ← getNumField fs "dac_2"
    let d3 ← getNumField fs "dac_3"
    let d4 ← getNumField fs "dac_4"
    some ⟨sid, ts, lat, lon, alt, ax, ay, az, gx, gy, gz, d1, d2, d3, d4⟩
  | _ => none

/-- Embedding of serde_json::from_str::<SensorData> (main.rs line 177). -/
def parseSensorData (line : String) : Option SensorData :=
  (parseJsonStr line).bind sensorDataFromJson

/-- The DecodeOutcome type of the spec: exactly one variant per decoded line. -/
inductive DecodeOutcome where
  | record (d : SensorData) : DecodeOutcome
  | keepalive : DecodeOutcome
  | malformed : DecodeOutcome
deriving DecidableEq

/-- The raw-line keepalive discriminator substring checked before parsing
(main.rs line 171). -/
def kaMarker : String := "\"type\":\"keepalive\""

/-- The keepalive test applied to a timestamp value (main.rs line 180): equality with
or containment of the literal keepalive. -/
def isKaStr (s : String) : Bool := (s == "keepalive") || strContains s "keepalive"

/-- Decoding of one trimmed, non-empty line (main.rs lines 170-209): keepalive
substring short-circuit, then serde parsing, then the defensive timestamp check on a
successfully parsed record; a parse error is the Malformed outcome. -/
def decodeLine (line : String) : DecodeOutcome :=
  if strContains line kaMarker then DecodeOutcome.keepalive
  else
    match parseSensorData line with
    | some d => if isKaStr d.timestamp then DecodeOutcome.keepalive else DecodeOutcome.record d
    | none => DecodeOutcome.malformed

/-- One row of the sensor_data table minus its auto-generated id: the 15 logical
columns in the order of the INSERT statement (main.rs lines 186-198). -/
structure Row where
  sessionID : Option Int
  timestamp : String
  latitude : ℚ
  longitude : ℚ
  altitude : ℚ
  accel_x : ℚ
  accel_y : ℚ
  accel_z : ℚ
  gyro_x : ℚ
  gyro_y : ℚ
  gyro_z : ℚ
  dac_1 : ℚ
  dac_2 : ℚ
  dac_3 : ℚ
  dac_4 : ℚ
deriving DecidableEq

/-- The bound parameters of the INSERT statement (main.rs lines 193-198), column by
column. -/
def rowOf (d : SensorData) : Row :=
  ⟨d.sessionID, d.timestamp, d.latitude, d.longitude, d.altitude, d.accel_x, d.accel_y,
    d.accel_z, d.gyro_x, d.gyro_y, d.gyro_z, d.dac_1, d.dac_2, d.dac_3, d.dac_4⟩

/-- The sensor_data table (main.rs lines 58-78): the AUTOINCREMENT sequence value and
the rows keyed by their generated id. -/
structure Store where
  seq : Nat
  rows : List (Nat × Row)
deriving DecidableEq

/-- Embedding of executing the INSERT INTO sensor_data statement (main.rs
lines 186-198): one new row whose id comes from the AUTOINCREMENT sequence of the store. -/
def dbInsert (d : SensorData) (st : Store) : Store :=
  ⟨st.seq + 1, st.rows ++ [(st.seq + 1, rowOf d)]⟩

/-- One result of the reader.lines() iterator (main.rs lines 158-159, 211-224): a line,
a read timeout, a would-block, or a fatal error / end of stream. -/
inductive LineEvent where
  | line (s : String) : LineEvent
  | timedOut : LineEvent
  | wouldBlock : LineEvent
  | fatal : LineEvent
deriving DecidableEq

/-- Per-connection handler state: the store seen through the handle of this connection, the
number of INSERT attempts made so far, and the trimmed non-blank lines that reached the
decoding stage. -/
structure HState where
  store : Store
  attempts : Nat
  decoded : List String
deriving DecidableEq

/-- Processing of one successfully read line (main.rs lines 160-209): trim, skip a
blank line, decode (keepalive short-circuit, serde parse, timestamp check), and on a
Record execute the INSERT, whose success is given by the oracle ok at the current
attempt index; an INSERT failure is only logged. -/
def stepLine (ok : Nat → Bool) (st : HState) (raw : String) : HState :=
  let l := trimWs raw
  if l = "" then st
  else
    let st1 : HState := ⟨st.store, st.attempts, st.decoded ++ [l]⟩
    match decodeLine l with
    | DecodeOutcome.record d =>
      if ok st1.attempts then ⟨dbInsert d st1.store, st1.attempts + 1, st1.decoded⟩
      else ⟨st1.store, st1.attempts + 1, st1.decoded⟩
    | _ => st1

/-- Embedding of the handle_client read loop (main.rs lines 158-226): a timeout or a
would-block continues the loop, a fatal error breaks out, and exhausting the events is
end of stream; either exit reaches the same terminal (Closing) state. -/
def handle_client (ok : Nat → Bool) : List LineEvent → HState → HState
  | [], st => st
  | LineEvent.line s :: rest, st => handle_client ok rest (stepLine ok st s)
  | LineEvent.timedOut :: rest, st => handle_client ok rest st
  | LineEvent.wouldBlock :: rest, st => handle_client ok rest st
  | LineEvent.fatal :: _, st => st

/-- The initial handler state: fresh store view, no attempts, nothing decoded. -/
def initHState : HState := ⟨⟨0, []⟩, 0, []⟩

/-- The view of the spec (sections 5 and 8): the records decoded from the lines that arrive
before the connection ends, in arrival order. -/
def decodedRecords : List LineEvent → List SensorData
  | [] => []
  | LineEvent.line s :: rest =>
    (if trimWs s = "" then []
     else
       match decodeLine (trimWs s) with
       | DecodeOutcome.record d => [d]
       | _ => []) ++ decodedRecords rest
  | LineEvent.timedOut :: rest => decodedRecords rest
  | LineEvent.wouldBlock :: rest => decodedRecords rest
  | LineEvent.fatal :: _ => []

/-- The view of the spec: of a sequence of records offered to the sink starting at attempt
index i, those whose append succeeded, in order. -/
def keepOks (ok : Nat → Bool) : Nat → List SensorData → List SensorData
  | _, [] => []
  | i, d :: ds => if ok i then d :: keepOks ok (i + 1) ds else keepOks ok (i + 1) ds

/-- The view of the spec: the trimmed non-blank lines that reach the decoder before the
connection ends. -/
def linesReachingDecode : List LineEvent → List String
  | [] => []
  | LineEvent.line s :: rest =>
    (if trimWs s = "" then [] else [trimWs s]) ++ linesReachingDecode rest
  | LineEvent.timedOut :: rest => linesReachingDecode rest
  | LineEvent.wouldBlock :: rest => linesReachingDecode rest
  | LineEvent.fatal :: _ => []

/-- Modelled from the spec: splitting a delimited line on the comma separator
(sections 4.1 and 6). The delimited decoder is code of this repository that is absent
from src/main.rs, which implements only the structured encoding. -/
def splitComma (s : String) : List String := (s.toList.splitOn ',').map String.mk

/-- Modelled from the spec: the delimited session-id rule (section 4.1) - the literal
None or any failed integer parse maps to absent; the integer parse follows Rust i32:
optional sign, only digits, value within i32 range. -/
def parseIntOpt (s : String) : Option Int :=
  let split : Bool × List Char :=
    match s.toList with
    | '+' :: t => (false, t)
    | '-' :: t => (true, t)
    | t => (false, t)
  let ds := split.2
  if ds.isEmpty || !(ds.all Char.isDigit) then none
  else
    let v : Int := if split.1 then -(digitsToNat ds : Int) else (digitsToNat ds : Int)
    if -2147483648 ≤ v ∧ v ≤ 2147483647 then some v else none

/-- Modelled from the spec: scalar parsing in the delimited encoding (section 4.1) - a
Rust f64-style floating literal, parsed exactly into a rational: optional sign, digits
with an optional dot on either side (at least one digit overall), optional exponent.
The inf and nan spellings are not modelled; no stated property involves them. -/
def parseRatOpt (s : String) : Option ℚ :=
  let split : Bool × List Char :=
    match s.toList with
    | '+' :: t => (false, t)
    | '-' :: t => (true, t)
    | t => (false, t)
  let parts := split.2.splitOnP fun c => c == 'e' || c == 'E'
  let mant : Option (List Char × List Char) :=
    match parts with
    | [m] => some (m, [])
    | [m, ex] => if ex.isEmpty then none else some (m, ex)
    | _ => none
  match mant with
  | none => none
  | some (m, ex) =>
    let mparts := m.splitOn '.'
    let digs : Option (List Char × List Char) :=
      match mparts with
      | [i] => some (i, [])
      | [i, f] => some (i, f)
      | _ => none
    match digs with
    | none => none
    | some (ids, fds) =>
      if (ids ++ fds).isEmpty || !((ids ++ fds).all Char.isDigit) then none
      else
        let e : Option Int :=
          if ex.isEmpty then some 0
          else
            match ex with
            | '+' :: t => if t.isEmpty || !(t.all Char.isDigit) then none else some (digitsToNat t : Int)
            | '-' :: t => if t.isEmpty || !(t.all Char.isDigit) then none else some (-(digitsToNat t : Int))
            | t => if !(t.all Char.isDigit) then none else some (digitsToNat t : Int)
        match e with
        | none => none
        | some ev =>
          let mNat : Nat := digitsToNat ids * 10 ^ fds.length + digitsToNat fds
          let numAbs : Nat := if 0 ≤ ev then mNat * 10 ^ ev.toNat else mNat
          let den : Nat :=
            if 0 ≤ ev then 10 ^ fds.length else 10 ^ fds.length * 10 ^ (-ev).toNat
          some (mkRat (if split.1 then -(numAbs : Int) else (numAbs : Int)) den)

/-- Modelled from the spec: the Record built from a delimited line with at least 15
fields (section 4.1) - field 0 the session id, field 1 the timestamp, fields 2 to 14
the 13 float scalars, each defaulting to 0.0 when its parse fails. -/
def mkDelimitedRecord (fs : List String) : SensorData :=
  { sessionID :=
      if fs.getD 0 "" = "None" then none else parseIntOpt (fs.getD 0 "")
    timestamp := fs.getD 1 ""
    latitude := (parseRatOpt (fs.getD 2 "")).getD 0
    longitude := (parseRatOpt (fs.getD 3 "")).getD 0
    altitude := (parseRatOpt (fs.getD 4 "")).getD 0
    accel_x := (parseRatOpt (fs.getD 5 "")).getD 0
    accel_y := (parseRatOpt (fs.getD 6 "")).getD 0
    accel_z := (parseRatOpt (fs.getD 7 "")).getD 0
    gyro_x := (parseRatOpt (fs.getD 8 "")).getD 0
    gyro_y := (parseRatOpt (fs.getD 9 "")).getD 0
    gyro_z := (parseRatOpt (fs.getD 10 "")).getD 0
    dac_1 := (parseRatOpt (fs.getD 11 "")).getD 0
    dac_2 := (parseRatOpt (fs.getD 12 "")).getD 0
    dac_3 := (parseRatOpt (fs.getD 13 "")).getD 0
    dac_4 := (parseRatOpt (fs.getD 14 "")).getD 0 }

/-- Modelled from the spec: the delimited (CSV-like) decoder of sections 4.1 and 6,
absent from src/main.rs. Fewer than 15 fields is Malformed; the keepalive check of
section 4.1 on the timestamp field applies regardless of encoding; otherwise the line
always yields a Record. -/
def decodeDelimited (line : String) : DecodeOutcome :=
  let fs := splitComma line
  if fs.length < 15 then DecodeOutcome.malformed
  else if isKaStr (fs.getD 1 "") then DecodeOutcome.keepalive
  else DecodeOutcome.record (mkDelimitedRecord fs)

/-- The 13 float scalars of a Record in positional order (delimited fields 2 to 14). -/
def scalarAt (d : SensorData) : Nat → ℚ
  | 0 => d.latitude
  | 1 => d.longitude
  | 2 => d.altitude
  | 3 => d.accel_x
  | 4 => d.accel_y
  | 5 => d.accel_z
  | 6 => d.gyro_x
  | 7 => d.gyro_y
  | 8 => d.gyro_z
  | 9 => d.dac_1
  | 10 => d.dac_2
  | 11 => d.dac_3
  | 12 => d.dac_4
  | _ => 0

/-- The ShutdownFlag over acceptor iterations (main.rs lines 81-95): true initially;
the only write in the program is the ctrl-c handler storing false (lines 85-89),
and sig n says whether that handler fired during iteration n. -/
def flagAt (sig : Nat → Bool) : Nat → Bool
  | 0 => true
  | n + 1 => if sig n then false else flagAt sig n

/-- The acceptor loop (main.rs lines 95-137): while the flag reads true, poll the
listener (pending says whether a connection is ready that iteration, otherwise the
accept would block and the loop merely sleeps) and record the iteration index of every
accepted connection. -/
def acceptLoop (sig pending : Nat → Bool) : Nat → Nat → List Nat
  | 0, _ => []
  | fuel + 1, n =>
    if flagAt sig n then
      (if pending n then [n] else []) ++ acceptLoop sig pending fuel (n + 1)
    else []

lemma handle_client_rows (ok : Nat → Bool) :
    ∀ (events : List LineEvent) (st : HState),
      ((handle_client ok events st).store.rows).map Prod.snd
        = (st.store.rows).map Prod.snd
          ++ (keepOks ok st.attempts (decodedRecords events)).map rowOf := by
  intro events
  induction events with
  | nil => intro st; simp [handle_client, decodedRecords, keepOks]
  | cons e rest ih =>
    intro st
    cases e with
    | line s =>
      by_cases hb : trimWs s = ""
      · simp [handle_client, stepLine, hb, decodedRecords, ih]
      · cases hd : decodeLine (trimWs s) with
        | record d =>
          by_cases hok : ok st.attempts = true
          · simp [handle_client, stepLine, hb, hd, hok, decodedRecords, keepOks, ih,
              dbInsert]
          · simp at hok
            simp [handle_client, stepLine, hb, hd, hok, decodedRecords, keepOks, ih]
        | keepalive =>
          simp [handle_client, stepLine, hb, hd, decodedRecords, ih]
        | malformed =>
          simp [handle_client, stepLine, hb, hd, decodedRecords, ih]
    | timedOut => simp [handle_client, decodedRecords, ih]
    | wouldBlock => simp [handle_client, decodedRecords, ih]
    | fatal => simp [handle_client, decodedRecords, keepOks]

lemma handle_client_decoded (ok : Nat → Bool) :
    ∀ (events : List LineEvent) (st : HState),
      (handle_client ok events st).decoded = st.decoded ++ linesReachingDecode events := by
  intro events
  induction events with
  | nil => intro st; simp [handle_client, linesReachingDecode]
  | cons e rest ih =>
    intro st
    cases e with
    | line s =>
      by_cases hb : trimWs s = ""
      · simp [handle_client, stepLine, hb, linesReachingDecode, ih]
      · cases hd : decodeLine (trimWs s) with
        | record d =>
          by_cases hok : ok st.attempts = true
          · simp [handle_client, stepLine, hb, hd, hok, linesReachingDecode, ih]
          · simp at hok
            simp [handle_client, stepLine, hb, hd, hok, linesReachingDecode, ih]
        | keepalive => simp [handle_client, stepLine, hb, hd, linesReachingDecode, ih]
        | malformed => simp [handle_client, stepLine, hb, hd, linesReachingDecode, ih]
    | timedOut => simp [handle_client, linesReachingDecode, ih]
    | wouldBlock => simp [handle_client, linesReachingDecode, ih]
    | fatal => simp [handle_client, linesReachingDecode]

lemma linesReachingDecode_fatal (post : List LineEvent) :
    ∀ pre, linesReachingDecode (pre ++ LineEvent.fatal :: post) = linesReachingDecode pre := by
  intro pre
  induction pre with
  | nil => simp [linesReachingDecode]
  | cons e rest ih =>
    cases e with
    | line s => simp [linesReachingDecode, ih]
    | timedOut => simp [linesReachingDecode, ih]
    | wouldBlock => simp [linesReachingDecode, ih]
    | fatal => simp [linesReachingDecode]

/-- C5: within one connection, the rows appended to the store are exactly the
successfully decoded Records in the order their lines arrived, filtered only by the
per-append success oracle - no reordering, no batching, no other skipping. -/
theorem persisted_in_arrival_order (ok : Nat → Bool) (events : List LineEvent) :
    ((handle_client ok events initHState).store.rows).map Prod.snd
      = (keepOks ok 0 (decodedRecords events)).map rowOf := by
  simpa [initHState] using handle_client_rows ok events initHState

/-- C6: the handler decodes every line that arrives before the first fatal error -
blank lines, keepalives, malformed lines, timeouts, would-blocks and append failures
never terminate the loop - and processes nothing after a fatal error; with no fatal
error it runs to end of stream. -/
theorem handler_closes_only_on_fatal_or_eof (ok : Nat → Bool)
    (events pre post : List LineEvent) :
    (handle_client ok events initHState).decoded = linesReachingDecode events
    ∧ (handle_client ok (pre ++ LineEvent.fatal :: post) initHState).decoded
        = linesReachingDecode pre := by
  constructor
  · simpa [initHState] using handle_client_decoded ok events initHState
  · rw [show (handle_client ok (pre ++ LineEvent.fatal :: post) initHState).decoded
        = linesReachingDecode (pre ++ LineEvent.fatal :: post) by
      simpa [initHState] using handle_client_decoded ok (pre ++ LineEvent.fatal :: post) initHState]
    exact linesReachingDecode_fatal post pre

/-- C4: a failed append is attempted exactly once (no retry), leaves the store
unchanged (the record is dropped), and the handler continues with the remaining
events of the same connection instead of terminating. -/
theorem append_failure_drops_and_continues (ok : Nat → Bool) (st : HState) (raw : String)
    (rest : List LineEvent) (d : SensorData)
    (hnb : trimWs raw ≠ "") (hdec : decodeLine (trimWs raw) = DecodeOutcome.record d)
    (hfail : ok st.attempts = false) :
    stepLine ok st raw = ⟨st.store, st.attempts + 1, st.decoded ++ [trimWs raw]⟩
    ∧ handle_client ok (LineEvent.line raw :: rest) st
        = handle_client ok rest ⟨st.store, st.attempts + 1, st.decoded ++ [trimWs raw]⟩ := by
  have hstep : stepLine ok st raw = ⟨st.store, st.attempts + 1, st.decoded ++ [trimWs raw]⟩ := by
    simp [stepLine, hnb, hdec, hfail]
  exact ⟨hstep, by simp [handle_client, hstep]⟩

/-- C8: one append writes exactly one row carrying all 15 logical columns of the
Record, and the surrogate id of the new row is generated from the store sequence,
independent of the record supplied by the caller. -/
theorem append_writes_one_full_row (d : SensorData) (st : Store) :
    (dbInsert d st).rows = st.rows ++ [(st.seq + 1, rowOf d)]
    ∧ (dbInsert d st).rows.length = st.rows.length + 1
    ∧ (rowOf d).sessionID = d.sessionID
    ∧ (rowOf d).timestamp = d.timestamp
    ∧ (rowOf d).latitude = d.latitude
    ∧ (rowOf d).longitude = d.longitude
    ∧ (rowOf d).altitude = d.altitude
    ∧ (rowOf d).accel_x = d.accel_x
    ∧ (rowOf d).accel_y = d.accel_y
    ∧ (rowOf d).accel_z = d.accel_z
    ∧ (rowOf d).gyro_x = d.gyro_x
    ∧ (rowOf d).gyro_y = d.gyro_y
    ∧ (rowOf d).gyro_z = d.gyro_z
    ∧ (rowOf d).dac_1 = d.dac_1
    ∧ (rowOf d).dac_2 = d.dac_2
    ∧ (rowOf d).dac_3 = d.dac_3
    ∧ (rowOf d).dac_4 = d.dac_4
    ∧ ∀ e : SensorData, (dbInsert e st).seq = (dbInsert d st).seq := by
  refine ⟨rfl, by simp [dbInsert], ?_⟩
  simp [rowOf, dbInsert]

/-- A concrete structured sensor line used by witnesses. -/
def jline1 : String := "\x7b\"timestamp\":\"2024\",\"latitude\":1,\"longitude\":2,\"altitude\":3,\"accel_x\":4,\"accel_y\":5,\"accel_z\":6,\"gyro_x\":7,\"gyro_y\":8,\"gyro_z\":9,\"dac_1\":10,\"dac_2\":11,\"dac_3\":12,\"dac_4\":13\x7d"

/-- The Record carried by jline1. -/
def jrec1 : SensorData := ⟨none, "2024", 1, 2, 3, 4, 5, 6, 7, 8, 9, 10, 11, 12, 13⟩

/-- The keepalive control line exactly as the sender serializes it. -/
def kaLine : String := "\x7b\"type\":\"keepalive\"\x7d"

/-- The keepalive object serialized with a space after the colon. -/
def kaSpacedLine : String := "\x7b\"type\": \"keepalive\"\x7d"

/-- A structured sensor line whose timestamp contains the keepalive sentinel. -/
def kaSensorLine : String := "\x7b\"timestamp\":\"keepalive-2024\",\"latitude\":1,\"longitude\":2,\"altitude\":3,\"accel_x\":4,\"accel_y\":5,\"accel_z\":6,\"gyro_x\":7,\"gyro_y\":8,\"gyro_z\":9,\"dac_1\":10,\"dac_2\":11,\"dac_3\":12,\"dac_4\":13\x7d"

/-- The Record kaSensorLine parses to before the timestamp check rejects it. -/
def kaSensorRec : SensorData := ⟨none, "keepalive-2024", 1, 2, 3, 4, 5, 6, 7, 8, 9, 10, 11, 12, 13⟩

/-- A delimited line with 15 fields whose timestamp field is the keepalive sentinel. -/
def kaDelimLine : String := "1,keepalive,1,1,1,1,1,1,1,1,1,1,1,1,1"

/-- A structured line that parses as JSON but misses the required keys. -/
def badLine1 : String := "\x7b\"timestamp\":\"t\"\x7d"

/-- C2: a line carrying the keepalive discriminator substring, or one whose parsed
timestamp equals or contains the keepalive sentinel - under the structured or, in the
spec-modelled decoder, the delimited encoding - never yields a Record outcome, and
processing it never changes the store; the handler merely continues. -/
theorem keepalive_never_record (raw : String) :
    (strContains (trimWs raw) kaMarker = true →
      (∀ d, decodeLine (trimWs raw) ≠ DecodeOutcome.record d)
      ∧ ∀ ok st, (stepLine ok st raw).store = st.store)
    ∧ (∀ d, parseSensorData (trimWs raw) = some d → isKaStr d.timestamp = true →
      (∀ e, decodeLine (trimWs raw) ≠ DecodeOutcome.record e)
      ∧ ∀ ok st, (stepLine ok st raw).store = st.store)
    ∧ (15 ≤ (splitComma raw).length → isKaStr ((splitComma raw).getD 1 "") = true →
      ∀ d, decodeDelimited raw ≠ DecodeOutcome.record d) := by
  have hstep : decodeLine (trimWs raw) = DecodeOutcome.keepalive →
      ∀ ok st, (stepLine ok st raw).store = st.store := by
    intro hdl ok st
    by_cases hb : trimWs raw = ""
    · simp [stepLine, hb]
    · simp [stepLine, hb, hdl]
  refine ⟨fun hm => ?_, fun d hp hka => ?_, fun h15 hka d => ?_⟩
  · have hdl : decodeLine (trimWs raw) = DecodeOutcome.keepalive := by
      simp [decodeLine, hm]
    exact ⟨fun d hc => by simp [hdl] at hc, hstep hdl⟩
  · have hdl : decodeLine (trimWs raw) = DecodeOutcome.keepalive := by
      by_cases hm : strContains (trimWs raw) kaMarker = true
      · simp [decodeLine, hm]
      · simp only [Bool.not_eq_true] at hm
        simp [decodeLine, hm, hp, hka]
    exact ⟨fun e hc => by simp [hdl] at hc, hstep hdl⟩
  · have hge : ¬ (splitComma raw).length < 15 := by omega
    have hka2 : isKaStr ((splitComma raw)[1]?.getD "") = true := by
      simpa [List.getD] using hka
    simp [decodeDelimited, hge, hka2]

/-- Witness for C2 at three concrete lines: the serialized keepalive object, a sensor
object whose timestamp contains keepalive, and a delimited keepalive line. -/
theorem keepalive_never_record_witness :
    (decodeLine (trimWs kaLine) ≠ DecodeOutcome.record jrec1
      ∧ (stepLine (fun _ => true) initHState kaLine).store = initHState.store)
    ∧ (decodeLine (trimWs kaSensorLine) ≠ DecodeOutcome.record jrec1
      ∧ (stepLine (fun _ => true) initHState kaSensorLine).store = initHState.store)
    ∧ decodeDelimited kaDelimLine ≠ DecodeOutcome.record jrec1 :=
  have h1 := (keepalive_never_record kaLine).1 (by decide)
  have h2 := (keepalive_never_record kaSensorLine).2.1 kaSensorRec (by decide) (by decide)
  have h3 := (keepalive_never_record kaDelimLine).2.2 (by decide) (by decide)
  ⟨⟨h1.1 jrec1, h1.2 (fun _ => true) initHState⟩,
   ⟨h2.1 jrec1, h2.2 (fun _ => true) initHState⟩, h3 jrec1⟩

/-- C3: when a structured line reaches serde parsing (no keepalive short-circuit) and
the parse fails - malformed syntax, missing key or wrong type all surface as a failed
parse - the outcome is Malformed, never a Record, and the store is untouched. -/
theorem structured_parse_failure_malformed (raw : String)
    (hm : strContains (trimWs raw) kaMarker = false)
    (hp : parseSensorData (trimWs raw) = none) :
    decodeLine (trimWs raw) = DecodeOutcome.malformed
    ∧ (∀ d, decodeLine (trimWs raw) ≠ DecodeOutcome.record d)
    ∧ ∀ ok st, (stepLine ok st raw).store = st.store := by
  have hdl : decodeLine (trimWs raw) = DecodeOutcome.malformed := by
    simp [decodeLine, hm, hp]
  refine ⟨hdl, fun d hc => by simp [hdl] at hc, fun ok st => ?_⟩
  by_cases hb : trimWs raw = ""
  · simp [stepLine, hb]
  · simp [stepLine, hb, hdl]

/-- Witness for C3 at a JSON object missing its required keys. -/
theorem structured_parse_failure_malformed_witness :
    decodeLine (trimWs badLine1) = DecodeOutcome.malformed
    ∧ decodeLine (trimWs badLine1) ≠ DecodeOutcome.record jrec1
    ∧ (stepLine (fun _ => true) initHState badLine1).store = initHState.store :=
  have h := structured_parse_failure_malformed badLine1 (by decide) (by decide)
  ⟨h.1, h.2.1 jrec1, h.2.2 (fun _ => true) initHState⟩

/-- C10: the pre-parse keepalive short-circuit fires on exactly the literal substring
match - any line containing it is Keepalive - while the same object serialized with a
space after the colon misses the substring, fails sensor parsing, and is classified
Malformed, yet still never reaches the store. -/
theorem keepalive_marker_exact_substring (line : String) :
    (strContains line kaMarker = true → decodeLine line = DecodeOutcome.keepalive)
    ∧ strContains kaSpacedLine kaMarker = false
    ∧ decodeLine kaSpacedLine = DecodeOutcome.malformed
    ∧ ∀ ok st raw, trimWs raw = kaSpacedLine → (stepLine ok st raw).store = st.store := by
  refine ⟨fun h => by simp [decodeLine, h], by decide, by decide, fun ok st raw hr => ?_⟩
  have hb : trimWs raw ≠ "" := by rw [hr]; decide
  have hdl : decodeLine (trimWs raw) = DecodeOutcome.malformed := by rw [hr]; decide
  simp [stepLine, hb, hdl]

/-- Witness for C10: the exact marker line is Keepalive and the spaced variant leaves
the store unchanged. -/
theorem keepalive_marker_exact_substring_witness :
    decodeLine kaLine = DecodeOutcome.keepalive
    ∧ (stepLine (fun _ => true) initHState kaSpacedLine).store = initHState.store :=
  ⟨(keepalive_marker_exact_substring kaLine).1 (by decide),
   (keepalive_marker_exact_substring kaLine).2.2.2 (fun _ => true) initHState kaSpacedLine
     (by decide)⟩

/-- Witness for C4: a failed INSERT for a concrete valid line leaves the store intact
and the loop running. -/
theorem append_failure_drops_and_continues_witness :
    stepLine (fun _ => false) initHState jline1
        = ⟨initHState.store, initHState.attempts + 1, initHState.decoded ++ [trimWs jline1]⟩
    ∧ handle_client (fun _ => false) [LineEvent.line jline1] initHState
        = handle_client (fun _ => false) []
            ⟨initHState.store, initHState.attempts + 1, initHState.decoded ++ [trimWs jline1]⟩ :=
  append_failure_drops_and_continues (fun _ => false) initHState jline1 [] jrec1
    (by decide) (by decide) rfl

lemma flagAt_false_succ (sig : Nat → Bool) (n : Nat) (h : flagAt sig n = false) :
    flagAt sig (n + 1) = false := by
  simp [flagAt, h]

lemma flagAt_false_mono (sig : Nat → Bool) :
    ∀ k m, flagAt sig m = false → flagAt sig (m + k) = false := by
  intro k
  induction k with
  | zero => intro m h; simpa using h
  | succ k ih =>
    intro m h
    have h2 := flagAt_false_succ sig (m + k) (ih m h)
    exact h2

lemma acceptLoop_mem (sig pending : Nat → Bool) :
    ∀ fuel n0 i, i ∈ acceptLoop sig pending fuel n0 → flagAt sig i = true := by
  intro fuel
  induction fuel with
  | zero => intro n0 i h; simp [acceptLoop] at h
  | succ fuel ih =>
    intro n0 i h
    by_cases hf : flagAt sig n0 = true
    · by_cases hp : pending n0 = true
      · simp [acceptLoop, hf, hp] at h
        rcases h with rfl | h
        · exact hf
        · exact ih _ _ h
      · simp only [Bool.not_eq_true] at hp
        simp [acceptLoop, hf, hp] at h
        exact ih _ _ h
    · simp only [Bool.not_eq_true] at hf
      simp [acceptLoop, hf] at h

/-- C7: the ShutdownFlag starts true, can only go false and never returns to true (so
it transitions at most once), and every connection the acceptor takes is taken at an
iteration where the flag still reads true - once false, no further accepts. -/
theorem shutdown_flag_and_acceptor_stop (sig pending : Nat → Bool) :
    flagAt sig 0 = true
    ∧ (∀ n, flagAt sig n = false → flagAt sig (n + 1) = false)
    ∧ (∀ m n, flagAt sig m = true → flagAt sig (m + 1) = false →
        flagAt sig n = true → flagAt sig (n + 1) = false → m = n)
    ∧ ∀ fuel n0 i, i ∈ acceptLoop sig pending fuel n0 → flagAt sig i = true := by
  refine ⟨rfl, fun n h => flagAt_false_succ sig n h, ?_,
    fun fuel n0 i h => acceptLoop_mem sig pending fuel n0 i h⟩
  intro m n h1m h2m h1n h2n
  rcases lt_trichotomy m n with hlt | heq | hgt
  · exfalso
    have he : m + 1 + (n - (m + 1)) = n := by omega
    have hf := flagAt_false_mono sig (n - (m + 1)) (m + 1) h2m
    rw [he] at hf
    simp [hf] at h1n
  · exact heq
  · exfalso
    have he : n + 1 + (m - (n + 1)) = m := by omega
    have hf := flagAt_false_mono sig (m - (n + 1)) (n + 1) h2n
    rw [he] at hf
    simp [hf] at h1m

/-- A signal trace that fires the ctrl-c handler during iteration 0. -/
def sig0 : Nat → Bool := fun n => n == 0

/-- A listener with a connection ready at every poll. -/
def pending0 : Nat → Bool := fun _ => true

/-- Witness for C7 at a concrete signal trace. -/
theorem shutdown_flag_and_acceptor_stop_witness :
    flagAt sig0 0 = true ∧ flagAt sig0 4 = false ∧ (0 : Nat) = 0 ∧ flagAt sig0 0 = true :=
  have h := shutdown_flag_and_acceptor_stop sig0 pending0
  ⟨h.1, h.2.1 3 (by decide),
   h.2.2.1 0 0 (by decide) (by decide) (by decide) (by decide),
   h.2.2.2 2 0 0 (by decide)⟩

/-- The 15 keys of the SensorData model (struct fields, main.rs lines 15-31). -/
def sensorKeys : List String :=
  ["sessionID", "timestamp", "latitude", "longitude", "altitude", "accel_x", "accel_y",
   "accel_z", "gyro_x", "gyro_y", "gyro_z", "dac_1", "dac_2", "dac_3", "dac_4"]

/-- A structured object carrying exactly the required keys - timestamp and the 13
float scalars - with no sessionID key. -/
def mkSensorObjFields (ts : String)
    (q1 q2 q3 q4 q5 q6 q7 q8 q9 q10 q11 q12 q13 : ℚ) : List (String × Json) :=
  [("timestamp", Json.str ts), ("latitude", Json.num q1 false),
   ("longitude", Json.num q2 false), ("altitude", Json.num q3 false),
   ("accel_x", Json.num q4 false), ("accel_y", Json.num q5 false),
   ("accel_z", Json.num q6 false), ("gyro_x", Json.num q7 false),
   ("gyro_y", Json.num q8 false), ("gyro_z", Json.num q9 false),
   ("dac_1", Json.num q10 false), ("dac_2", Json.num q11 false),
   ("dac_3", Json.num q12 false), ("dac_4", Json.num q13 false)]

/-- C9: in the structured encoding only timestamp and the 13 float scalars are
required - an object without the sessionID key still deserializes, with an absent
session id, and one extra key outside the model is ignored rather than rejected; such
a line decodes to a Record. -/
theorem structured_session_optional_unknown_ignored (ts : String)
    (q1 q2 q3 q4 q5 q6 q7 q8 q9 q10 q11 q12 q13 : ℚ) (k : String) (v : Json)
    (hk : ¬ k ∈ sensorKeys) :
    sensorDataFromJson
        (Json.obj (mkSensorObjFields ts q1 q2 q3 q4 q5 q6 q7 q8 q9 q10 q11 q12 q13
          ++ [(k, v)]))
      = some ⟨none, ts, q1, q2, q3, q4, q5, q6, q7, q8, q9, q10, q11, q12, q13⟩
    ∧ ∀ line : String, strContains line kaMarker = false → isKaStr ts = false →
        parseJsonStr line
            = some (Json.obj (mkSensorObjFields ts q1 q2 q3 q4 q5 q6 q7 q8 q9 q10 q11 q12 q13
              ++ [(k, v)])) →
        decodeLine line
          = DecodeOutcome.record
              ⟨none, ts, q1, q2, q3, q4, q5, q6, q7, q8, q9, q10, q11, q12, q13⟩ := by
  simp only [sensorKeys, List.mem_cons, List.mem_singleton, not_or] at hk
  obtain ⟨h0, h1, h2, h3, h4, h5, h6, h7, h8, h9, h10, h11, h12, h13, h14⟩ := hk
  have hmain : sensorDataFromJson
      (Json.obj (mkSensorObjFields ts q1 q2 q3 q4 q5 q6 q7 q8 q9 q10 q11 q12 q13
        ++ [(k, v)]))
      = some ⟨none, ts, q1, q2, q3, q4, q5, q6, q7, q8, q9, q10, q11, q12, q13⟩ := by
    simp [sensorDataFromJson, mkSensorObjFields, getSessionField, getStrField, getNumField,
      countKey, lookupKey, h0, h1, h2, h3, h4, h5, h6, h7, h8, h9, h10, h11, h12, h13, h14]
  refine ⟨hmain, fun line hm hts hp => ?_⟩
  simp [decodeLine, hm, parseSensorData, hp, hmain, hts]

/-- The concrete line of jrec1 with one extra unknown key appended. -/
def c9line : String := "\x7b\"timestamp\":\"2024\",\"latitude\":1,\"longitude\":2,\"altitude\":3,\"accel_x\":4,\"accel_y\":5,\"accel_z\":6,\"gyro_x\":7,\"gyro_y\":8,\"gyro_z\":9,\"dac_1\":10,\"dac_2\":11,\"dac_3\":12,\"dac_4\":13,\"extra\":null\x7d"

/-- Witness for C9 at a concrete object and line without a sessionID key. -/
theorem structured_session_optional_unknown_ignored_witness :
    sensorDataFromJson
        (Json.obj (mkSensorObjFields "2024" 1 2 3 4 5 6 7 8 9 10 11 12 13
          ++ [("extra", Json.null)]))
      = some jrec1
    ∧ decodeLine c9line = DecodeOutcome.record jrec1 :=
  have h := structured_session_optional_unknown_ignored "2024" 1 2 3 4 5 6 7 8 9 10 11 12 13
    "extra" Json.null (by decide)
  ⟨h.1, h.2 c9line (by decide) (by decide) (by rfl)⟩

/-- Counterexample to C1 as stated: a delimited line with 15 fields whose timestamp
field is the keepalive sentinel decodes to Keepalive, not to a Record (though it is
still not rejected as Malformed). -/
theorem delimited_keepalive_timestamp_not_record :
    15 ≤ (splitComma kaDelimLine).length
    ∧ decodeDelimited kaDelimLine = DecodeOutcome.keepalive
    ∧ ∀ d, decodeDelimited kaDelimLine ≠ DecodeOutcome.record d := by
  refine ⟨by decide, by decide, fun d h => ?_⟩
  rw [(by decide : decodeDelimited kaDelimLine = DecodeOutcome.keepalive)] at h
  exact DecodeOutcome.noConfusion h

/-- C1 (amended): a delimited line is Malformed exactly when it has fewer than 15
fields; with at least 15 fields and a timestamp field not containing the keepalive
sentinel it always yields the Record read positionally from the fields, where the
session id is absent for the literal None and otherwise given by the integer parse,
and every scalar whose floating-point parse fails is exactly 0, the others carrying
their parsed value. -/
theorem delimited_decode_amended (line : String) (fs : List String)
    (hfs : fs = splitComma line) :
    (decodeDelimited line = DecodeOutcome.malformed ↔ fs.length < 15)
    ∧ (15 ≤ fs.length → isKaStr (fs.getD 1 "") = false →
        decodeDelimited line = DecodeOutcome.record (mkDelimitedRecord fs)
        ∧ (mkDelimitedRecord fs).timestamp = fs.getD 1 ""
        ∧ (fs.getD 0 "" = "None" → (mkDelimitedRecord fs).sessionID = none)
        ∧ (fs.getD 0 "" ≠ "None" →
            (mkDelimitedRecord fs).sessionID = parseIntOpt (fs.getD 0 ""))
        ∧ ∀ i, i < 13 →
            (parseRatOpt (fs.getD (i + 2) "") = none → scalarAt (mkDelimitedRecord fs) i = 0)
            ∧ ∀ q, parseRatOpt (fs.getD (i + 2) "") = some q →
                scalarAt (mkDelimitedRecord fs) i = q) := by
  subst hfs
  constructor
  · rcases Nat.lt_or_ge (splitComma line).length 15 with hlt | hge
    · simp [decodeDelimited, hlt]
    · have hnlt : ¬ (splitComma line).length < 15 := by omega
      by_cases hka : isKaStr ((splitComma line)[1]?.getD "") = true
      · simp [decodeDelimited, hnlt, hka]
      · simp only [Bool.not_eq_true] at hka
        simp [decodeDelimited, hnlt, hka]
  · intro h15 hka
    have hnlt : ¬ (splitComma line).length < 15 := by omega
    have hka2 : isKaStr ((splitComma line)[1]?.getD "") = false := by
      simpa [List.getD] using hka
    refine ⟨by simp [decodeDelimited, hnlt, hka2], rfl, fun h => ?_, fun h => ?_, ?_⟩
    · simp only [List.getD_eq_getElem?_getD] at h
      simp [mkDelimitedRecord, h]
    · simp only [List.getD_eq_getElem?_getD] at h
      simp [mkDelimitedRecord, h]
    · intro i hi
      interval_cases i <;>
        exact ⟨fun hnone => by
            simp only [List.getD_eq_getElem?_getD] at hnone
            simp [scalarAt, mkDelimitedRecord, hnone],
          fun q hq => by
            simp only [List.getD_eq_getElem?_getD] at hq
            simp [scalarAt, mkDelimitedRecord, hq]⟩

/-- The delimited scenario line of the spec. -/
def scenLine : String := "None,2024-01-01T00:00:00Z,1.0,2.0,3.0,0,0,0,0,0,0,0,0,0,0"

/-- Witness for the amended C1 at the two scenario lines of the spec. -/
theorem delimited_decode_amended_witness :
    decodeDelimited scenLine = DecodeOutcome.record (mkDelimitedRecord (splitComma scenLine))
    ∧ (mkDelimitedRecord (splitComma scenLine)).sessionID = none
    ∧ scalarAt (mkDelimitedRecord (splitComma scenLine)) 0 = 1
    ∧ scalarAt (mkDelimitedRecord (splitComma scenLine)) 12 = 0
    ∧ decodeDelimited "7,t,1,2" = DecodeOutcome.malformed :=
  have h := (delimited_decode_amended scenLine (splitComma scenLine) rfl).2
    (by decide) (by decide)
  have h3 := (delimited_decode_amended "7,t,1,2" (splitComma "7,t,1,2") rfl).1.mpr
    (by decide)
  ⟨h.1, h.2.2.1 (by decide), (h.2.2.2.2 0 (by decide)).2 1 (by decide),
   (h.2.2.2.2 12 (by decide)).2 0 (by decide), h3⟩
